import Mathlib

/-!
# Verification of the voiceonstudio segment-identification pipeline

Shallow embedding of the core pipeline of the `voiceonstudio` repository:
the audio-analysis flow `analyzeAudioForCleanSegments` (speech-to-text
orchestration, prompt construction, DeepSeek model-output parsing and zod
validation), the credential helper `getGoogleAccessToken`, and the
`AudioAnalyzer` module (`analyzeInternal`, `processAndCombineSegmentsInternal`
and their exported wrappers).

JavaScript `number`s are modelled as exact decimals (`Q10`, interpreted into
`ℚ` for the order lemmas), with `NaN` and the infinities represented
explicitly where the code can produce them (`parseFloat`).  External services (HTTP fetches, the `gcloud` CLI) are
modelled as oracle values carried in a `World` record: each field is the
outcome the environment would deliver for the single corresponding call the
pipeline makes.  Thrown JavaScript `Error`s are modelled as `Except String`
with the error's `message` string; messages produced by external libraries
(zod issue formatting, engine JSON `SyntaxError`s) are modelled by fixed
placeholder strings since their exact text is library-internal.
-/

namespace VoiceOnStudio

/-! ## Characters and JS string helpers -/

/-- The backtick character (code point 96), used by the fenced-code-block
regex `/(three backticks)(json)?...../` in the flow. -/
def btick : Char := Char.ofNat 96

/-- ASCII whitespace as matched by the regex class `\s` and by
`String.prototype.trim` (ASCII fragment; the Unicode space classes that JS
additionally accepts do not occur in this development). -/
def isWs (c : Char) : Bool :=
  c == ' ' || c == '\n' || c == '\t' || c == '\r' || c == '\x0b' || c == '\x0c'

/-- Drop trailing characters satisfying `p` (helper for right-trimming). -/
def rdropWhile (p : Char → Bool) (cs : List Char) : List Char :=
  (cs.reverse.dropWhile p).reverse

/-- JS `String.prototype.trim` on a character list (ASCII whitespace). -/
def trimL (cs : List Char) : List Char :=
  rdropWhile isWs (cs.dropWhile isWs)

/-- JS `str.replace('s', '')`: remove the **first** occurrence of the
character `s` only (string patterns in `replace` substitute one occurrence). -/
def removeFirstS : List Char → List Char
  | [] => []
  | c :: cs => if c == 's' then cs else c :: removeFirstS cs

/-! ## Exact decimal numbers

JSON numeric literals and everything `parseFloat` accepts are decimal
mantissa-and-exponent values, represented exactly as `num / 10 ^ exp`.  All
operations the pipeline performs on them (ordering, `toFixed`) are integer
arithmetic, so every definition evaluates inside the kernel.  `Q10.toRat`
interprets a value as a rational for the order lemmas.  (IEEE double rounding
applied by a real JS engine is not modelled; no claim depends on it.) -/

structure Q10 where
  num : Int
  exp : Nat
deriving Repr, DecidableEq, Inhabited

namespace Q10

/-- The rational value `num / 10 ^ exp`. -/
def toRat (q : Q10) : ℚ := (q.num : ℚ) / (10 : ℚ) ^ q.exp

/-- Value-level `≤`, by cross multiplication (pure integer arithmetic). -/
def le (a b : Q10) : Prop := a.num * ((10 ^ b.exp : Nat) : Int) ≤ b.num * ((10 ^ a.exp : Nat) : Int)

/-- Value-level `<`. -/
def lt (a b : Q10) : Prop := a.num * ((10 ^ b.exp : Nat) : Int) < b.num * ((10 ^ a.exp : Nat) : Int)

instance : LE Q10 := ⟨le⟩
instance : LT Q10 := ⟨lt⟩

instance decLe (a b : Q10) : Decidable (a ≤ b) :=
  show Decidable (a.num * ((10 ^ b.exp : Nat) : Int) ≤ b.num * ((10 ^ a.exp : Nat) : Int)) from
    inferInstance

instance decLt (a b : Q10) : Decidable (a < b) :=
  show Decidable (a.num * ((10 ^ b.exp : Nat) : Int) < b.num * ((10 ^ a.exp : Nat) : Int)) from
    inferInstance

/-- A whole number. -/
def ofInt (n : Int) : Q10 := ⟨n, 0⟩

instance : OfNat Q10 n := ⟨ofInt n⟩

theorem le_iff_toRat (a b : Q10) : a ≤ b ↔ a.toRat ≤ b.toRat := by
  show le a b ↔ _
  rw [le, toRat, toRat, div_le_div_iff₀ (by positivity) (by positivity)]
  rw [← @Int.cast_le ℚ]
  push_cast
  constructor <;> intro h <;> linarith

theorem lt_iff_toRat (a b : Q10) : a < b ↔ a.toRat < b.toRat := by
  show lt a b ↔ _
  rw [lt, toRat, toRat, div_lt_div_iff₀ (by positivity) (by positivity)]
  rw [← @Int.cast_lt ℚ]
  push_cast
  constructor <;> intro h <;> linarith

theorem leTotal (a b : Q10) : a ≤ b ∨ b ≤ a := by
  rw [le_iff_toRat, le_iff_toRat]
  exact le_total a.toRat b.toRat

theorem leTrans {a b c : Q10} (h₁ : a ≤ b) (h₂ : b ≤ c) : a ≤ c := by
  rw [le_iff_toRat] at *
  exact h₁.trans h₂

end Q10

/-! ## JSON values

`Json` models the values produced by JavaScript's `JSON.parse`. -/

inductive Json where
  | null
  | bool (b : Bool)
  | num (q : Q10)
  | str (s : String)
  | arr (elems : List Json)
  | obj (members : List (String × Json))
deriving Inhabited

namespace Json

/-- Object member lookup.  `JSON.parse` keeps the **last** of duplicate keys,
so lookup scans from the right. -/
def lookupLast (k : String) : List (String × Json) → Option Json
  | [] => none
  | (k', v) :: ms => match lookupLast k ms with
    | some v' => some v'
    | none => if k' == k then some v else none

/-- JS property read `j[k]` for values that came out of `JSON.parse`,
returning `none` for JS `undefined`.  Reading a property of `null` throws a
`TypeError` in JS; that case is the `.error`.  Property reads on primitives
yield `undefined`. -/
def getProp (j : Json) (k : String) : Except String (Option Json) :=
  match j with
  | .null => .error "TypeError: Cannot read properties of null"
  | .obj ms => .ok (lookupLast k ms)
  | _ => .ok none

/-- JS truthiness of a possibly-`undefined` value (`none` = `undefined`). -/
def truthy : Option Json → Bool
  | none => false
  | some .null => false
  | some (.bool b) => b
  | some (.num q) => !(q.num == 0)
  | some (.str s) => !(s == "")
  | some (.arr _) => true
  | some (.obj _) => true

end Json

/-! ## A JSON parser (`JSON.parse`)

Total via a fuel argument; the pipeline always supplies `length + 1` fuel,
which is enough because every recursive step consumes at least one character.
Parse failures model the `SyntaxError` that `JSON.parse` throws; the message
text is a fixed placeholder (engine messages are implementation-specific). -/

/-- Decimal digit test (code points 48–57). -/
def isDigit (c : Char) : Bool := decide (48 ≤ c.toNat ∧ c.toNat ≤ 57)

/-- Split off the leading run of decimal digits. -/
def takeDigits (cs : List Char) : List Char × List Char := cs.span isDigit

/-- Numeric value of a digit run (most significant first). -/
def digitsToNat (ds : List Char) : Nat :=
  ds.foldl (fun n c => 10 * n + (c.toNat - 48)) 0

/-- Value of one hexadecimal digit, if the character is one. -/
def hexVal (c : Char) : Option Nat :=
  let n := c.toNat
  if 48 ≤ n ∧ n ≤ 57 then some (n - 48)
  else if 97 ≤ n ∧ n ≤ 102 then some (n - 87)
  else if 65 ≤ n ∧ n ≤ 70 then some (n - 55)
  else none

/-- Value of a four-digit hexadecimal escape body. -/
def hexQuad (a b c d : Char) : Option Nat :=
  match hexVal a, hexVal b, hexVal c, hexVal d with
  | some w, some x, some y, some z => some (w * 4096 + x * 256 + y * 16 + z)
  | _, _, _, _ => none

/-- The four whitespace characters JSON allows between tokens. -/
def isJsonWs (c : Char) : Bool :=
  c == ' ' || c == '\t' || c == '\n' || c == '\r'

/-- Skip JSON inter-token whitespace. -/
def skipJsonWs (cs : List Char) : List Char := cs.dropWhile isJsonWs

/-- Decode a single-character JSON escape (everything except `\u`). -/
def escChar (e : Char) : Option Char :=
  if e == '"' then some '"'
  else if e == '\\' then some '\\'
  else if e == '/' then some '/'
  else if e == 'b' then some '\x08'
  else if e == 'f' then some '\x0c'
  else if e == 'n' then some '\n'
  else if e == 'r' then some '\r'
  else if e == 't' then some '\t'
  else none

/-- Parse the body of a JSON string (after the opening quote), handling the
escape sequences of RFC 8259.  Returns the decoded characters and the rest. -/
def parseStringBody : List Char → Option (List Char × List Char)
  | [] => none
  | c :: cs =>
    if c == '"' then some ([], cs)
    else if c == '\\' then
      match cs with
      | 'u' :: h1 :: h2 :: h3 :: h4 :: cs'' =>
        match hexQuad h1 h2 h3 h4 with
        | some v =>
          match parseStringBody cs'' with
          | some (tail, rest') => some (Char.ofNat v :: tail, rest')
          | none => none
        | none => none
      | e :: cs' =>
        match escChar e with
        | some d =>
          match parseStringBody cs' with
          | some (tail, rest') => some (d :: tail, rest')
          | none => none
        | none => none
      | [] => none
    else if c.toNat < 32 then none
    else
      match parseStringBody cs with
      | some (tail, rest') => some (c :: tail, rest')
      | none => none

/-- Build an exact decimal from its parts: sign, integer digits, fraction
digits, exponent sign and exponent magnitude. -/
def mkDecimal (neg : Bool) (ints fracs : List Char) (eneg : Bool) (e : Nat) : Q10 :=
  let mant : Nat := digitsToNat (ints ++ fracs)
  let mag : Int := if eneg then (mant : Int) else (mant : Int) * ((10 ^ e : Nat) : Int)
  let ex : Nat := if eneg then fracs.length + e else fracs.length
  ⟨if neg then -mag else mag, ex⟩

/-- Parse a JSON number (grammar of RFC 8259) into an exact decimal. -/
def parseJsonNumber (cs : List Char) : Option (Q10 × List Char) :=
  let (neg, cs₁) :=
    match cs with
    | c :: rest => if c == '-' then (true, rest) else (false, cs)
    | [] => (false, cs)
  let (ints, cs₂) := takeDigits cs₁
  if ints.isEmpty then none
  else if ints.length > 1 && ints.headD ' ' == '0' then none
  else
    let fracParse : Option (List Char × List Char) :=
      match cs₂ with
      | c :: rest =>
        if c == '.' then
          let (fds, r) := takeDigits rest
          if fds.isEmpty then none else some (fds, r)
        else some ([], cs₂)
      | [] => some ([], cs₂)
    match fracParse with
    | none => none
    | some (fracs, cs₃) =>
      let expParse : Option (Bool × Nat × List Char) :=
        match cs₃ with
        | c :: rest =>
          if c == 'e' || c == 'E' then
            let (eneg, rest₁) :=
              match rest with
              | d :: r2 =>
                if d == '-' then (true, r2) else if d == '+' then (false, r2) else (false, rest)
              | [] => (false, rest)
            let (eds, r3) := takeDigits rest₁
            if eds.isEmpty then none else some (eneg, digitsToNat eds, r3)
          else some (false, 0, cs₃)
        | [] => some (false, 0, cs₃)
      match expParse with
      | none => none
      | some (eneg, e, cs₄) => some (mkDecimal neg ints fracs eneg e, cs₄)

mutual

/-- Parse one JSON value.  `fuel` decreases at every recursive call. -/
def parseValue (fuel : Nat) (cs : List Char) : Option (Json × List Char) :=
  match fuel with
  | 0 => none
  | fuel + 1 =>
    match skipJsonWs cs with
    | [] => none
    | c :: cs' =>
      if c == 'n' then
        match cs' with
        | 'u' :: 'l' :: 'l' :: rest => some (.null, rest)
        | _ => none
      else if c == 't' then
        match cs' with
        | 'r' :: 'u' :: 'e' :: rest => some (.bool true, rest)
        | _ => none
      else if c == 'f' then
        match cs' with
        | 'a' :: 'l' :: 's' :: 'e' :: rest => some (.bool false, rest)
        | _ => none
      else if c == '"' then
        match parseStringBody cs' with
        | some (body, rest) => some (.str (String.mk body), rest)
        | none => none
      else if c == '[' then
        match skipJsonWs cs' with
        | ']' :: rest => some (.arr [], rest)
        | cs'' => parseElems fuel cs'' []
      else if c == '\x7b' then
        match skipJsonWs cs' with
        | '\x7d' :: rest => some (.obj [], rest)
        | cs'' => parseMembers fuel cs'' []
      else
        match parseJsonNumber (c :: cs') with
        | some (q, rest) => some (.num q, rest)
        | none => none

/-- Parse the elements of a non-empty JSON array (after `[`). -/
def parseElems (fuel : Nat) (cs : List Char) (acc : List Json) : Option (Json × List Char) :=
  match fuel with
  | 0 => none
  | fuel + 1 =>
    match parseValue fuel cs with
    | none => none
    | some (v, rest) =>
      match skipJsonWs rest with
      | ',' :: rest' => parseElems fuel rest' (v :: acc)
      | ']' :: rest' => some (.arr (v :: acc).reverse, rest')
      | _ => none

/-- Parse the members of a non-empty JSON object (after the opening brace). -/
def parseMembers (fuel : Nat) (cs : List Char) (acc : List (String × Json)) :
    Option (Json × List Char) :=
  match fuel with
  | 0 => none
  | fuel + 1 =>
    match skipJsonWs cs with
    | '"' :: cs' =>
      match parseStringBody cs' with
      | none => none
      | some (key, rest) =>
        match skipJsonWs rest with
        | ':' :: rest' =>
          match parseValue fuel rest' with
          | none => none
          | some (v, rest'') =>
            match skipJsonWs rest'' with
            | ',' :: rest₃ => parseMembers fuel rest₃ ((String.mk key, v) :: acc)
            | '\x7d' :: rest₃ => some (.obj ((String.mk key, v) :: acc).reverse, rest₃)
            | _ => none
        | _ => none
    | _ => none

end

/-- `JSON.parse`: parse a complete text, requiring only trailing whitespace
after the value.  The error is the modelled `SyntaxError` message. -/
def parseJson (s : String) : Except String Json :=
  match parseValue (s.length + 1) s.data with
  | some (v, rest) =>
    match skipJsonWs rest with
    | [] => .ok v
    | _ => .error "SyntaxError: Unexpected non-whitespace character in JSON"
  | none => .error "SyntaxError: Unexpected token in JSON"

/-! ## JS numbers: `parseFloat` and `toFixed`

`parseFloat` can produce `NaN` and the infinities, so the word-timing fields
are modelled by `JsNum`.  Finite values are exact decimals. -/

inductive JsNum where
  | nan
  | inf (neg : Bool)
  | fin (q : Q10)
deriving Repr, DecidableEq, Inhabited

/-- The numeric-prefix grammar accepted by JS `parseFloat`:
`[+-]? (digits [. digits*] | . digits+) ([eE] [+-]? digits+)?`, read as the
longest valid prefix.  Returns `none` when no prefix parses (JS `NaN`). -/
def parseFloatPrefix (cs : List Char) : Option Q10 :=
  let (neg, cs₁) :=
    match cs with
    | c :: rest =>
      if c == '-' then (true, rest) else if c == '+' then (false, rest) else (false, cs)
    | [] => (false, cs)
  let (ints, cs₂) := takeDigits cs₁
  let (fracs, cs₃) :=
    match cs₂ with
    | c :: rest => if c == '.' then takeDigits rest else ([], cs₂)
    | [] => ([], cs₂)
  if ints.isEmpty && fracs.isEmpty then none
  else
    let expParts : Bool × Nat :=
      match cs₃ with
      | c :: rest =>
        if c == 'e' || c == 'E' then
          let (eneg, rest₁) :=
            match rest with
            | d :: r2 =>
              if d == '-' then (true, r2) else if d == '+' then (false, r2) else (false, rest)
            | [] => (false, rest)
          let (eds, _) := takeDigits rest₁
          if eds.isEmpty then (false, 0) else (eneg, digitsToNat eds)
        else (false, 0)
      | [] => (false, 0)
    some (mkDecimal neg ints fracs expParts.1 expParts.2)

/-- JS `parseFloat`: skip leading whitespace, accept `Infinity`/`-Infinity`,
otherwise take the longest numeric prefix; `NaN` when nothing parses. -/
def parseFloat (s : String) : JsNum :=
  let cs := s.data.dropWhile isWs
  let infinity : List Char := "Infinity".data
  match cs with
  | c :: rest =>
    if c == '-' && infinity.isPrefixOf rest then .inf true
    else if c == '+' && infinity.isPrefixOf rest then .inf false
    else if infinity.isPrefixOf cs then .inf false
    else
      match parseFloatPrefix cs with
      | some q => .fin q
      | none => .nan
  | [] => .nan

/-- Render a natural number padded to at least two digits (for `toFixed`). -/
def pad2 (n : Nat) : String :=
  if n < 10 then "0" ++ toString n else toString n

/-- JS `Number.prototype.toFixed(2)` on an exact decimal: round the magnitude
to two decimal places (half away from zero, which agrees with JS on every
exact two-decimal input used by the pipeline) and render with exactly two
decimals. -/
def toFixed2 (q : Q10) : String :=
  let d : Nat := 10 ^ q.exp
  let m : Nat := (q.num.natAbs * 200 + d) / (2 * d)
  let sign := if q.num < 0 then "-" else ""
  sign ++ toString (m / 100) ++ "." ++ pad2 (m % 100)

/-- `toFixed(2)` lifted to `JsNum` (`NaN.toFixed(2) = "NaN"` etc.). -/
def JsNum.toFixed2s : JsNum → String
  | .nan => "NaN"
  | .inf true => "-Infinity"
  | .inf false => "Infinity"
  | .fin q => toFixed2 q

/-! ## The segment schema (zod)

Models `SegmentSchema` and `AnalyzeAudioForCleanSegmentsOutputSchema` from the
flow module:

* `SegmentSchema = z.object({ start: z.number(), end: z.number(),
  confidence: z.number().min(0).max(1) })`
* `AnalyzeAudioForCleanSegmentsOutputSchema = z.object({ segments:
  z.array(SegmentSchema) })`

zod's `z.object` requires a JSON object, strips unknown keys, and fails on a
missing or mistyped required key; `z.number()` accepts exactly JSON numbers.
Note the schema places **no** constraint relating `start` and `end` and no
lower bound on `start`; only `confidence` is bounded. -/

structure Segment where
  start : Q10
  «end» : Q10
  confidence : Q10
deriving Repr, DecidableEq, Inhabited

structure AnalyzeOutput where
  segments : List Segment
deriving Repr, DecidableEq, Inhabited

/-- `SegmentSchema.safeParse` on one parsed JSON value. -/
def validateSegment (j : Json) : Except String Segment :=
  match j with
  | .obj ms =>
    match Json.lookupLast "start" ms, Json.lookupLast "end" ms,
        Json.lookupLast "confidence" ms with
    | some (.num s), some (.num e), some (.num c) =>
      if 0 ≤ c ∧ c ≤ 1 then .ok ⟨s, e, c⟩
      else .error "confidence out of range"
    | _, _, _ => .error "invalid segment shape"
  | _ => .error "expected object"

/-- `z.array(SegmentSchema)`: every element must validate; there is no
partial acceptance. -/
def validateSegments : List Json → Except String (List Segment)
  | [] => .ok []
  | j :: js =>
    match validateSegment j with
    | .error e => .error e
    | .ok s =>
      match validateSegments js with
      | .error e => .error e
      | .ok ss => .ok (s :: ss)

/-- `AnalyzeAudioForCleanSegmentsOutputSchema.safeParse` on a parsed JSON
value.  The error string models `validationResult.error.message`. -/
def validateOutput (j : Json) : Except String AnalyzeOutput :=
  match j with
  | .obj ms =>
    match Json.lookupLast "segments" ms with
    | some (.arr items) =>
      match validateSegments items with
      | .ok ss => .ok ⟨ss⟩
      | .error e => .error e
    | _ => .error "segments: invalid or missing"
  | _ => .error "expected object"

/-! ## Fenced-code-block extraction

The flow extracts the model's JSON with
`messageContent.match(/(3 backticks)(?:json)?\s*([\s\S]*?)\s*(3 backticks)/)`
and uses capture group 1 if the regex matches, otherwise the whole (already
trimmed) content.  The regex semantics for this pattern:

* the match starts at the leftmost occurrence of three backticks that is
  followed (anywhere later) by another occurrence of three backticks;
* after the opening backticks a literal `json` is consumed when present
  (consuming it never destroys a match, since `json` contains no backtick);
* `\s*` greedily eats whitespace, the lazy group then stops at the earliest
  position from which `\s*` + three backticks matches, i.e. at the first
  later occurrence of three backticks with the whitespace run immediately
  before it excluded from the capture. -/

/-- Split at the first occurrence of three consecutive backticks:
`some (before, after)` with the three backticks removed, or `none`. -/
def splitTicks : List Char → Option (List Char × List Char)
  | [] => none
  | c :: cs =>
    if c == btick && cs.take 2 == [btick, btick] then some ([], cs.drop 2)
    else
      match splitTicks cs with
      | some (before, after) => some (c :: before, after)
      | none => none

/-- The capture group of the first match of the fenced-block regex, or `none`
when the regex does not match. -/
def extractFenced (cs : List Char) : Option (List Char) :=
  match splitTicks cs with
  | none => none
  | some (_, rest) =>
    let rest₂ := if "json".data.isPrefixOf rest then rest.drop 4 else rest
    let rest₃ := rest₂.dropWhile isWs
    match splitTicks rest₃ with
    | none => none
    | some (capture, _) => some (rdropWhile isWs capture)

/-- `jsonMatch ? jsonMatch[1] : messageContent` — the string handed to
`JSON.parse` (the argument is the already-trimmed message content). -/
def jsonCandidate (content : List Char) : List Char :=
  match extractFenced content with
  | some capture => capture
  | none => content

/-! ## The LLM prompt (`llmPrompt` template literal)

The template literal from the flow, split at its interpolation holes.  The
text is transcribed verbatim from the source (including the stray `// Use
formatted if available, otherwise plain transcript` comment, which sits
*inside* the template literal and is therefore part of the prompt). -/

/-- Template text before the transcript hole. -/
def promptPart1 : String :=
  "\nYou are an AI expert specializing in analyzing voice acting recordings based on provided transcripts WITH WORD TIMINGS. Your task is to identify \"perfect takes\". A perfect take is a segment of speech that is:\n1.  Fluent and coherent: Spoken clearly without stumbles, significant unnatural pauses (indicated by large gaps between word end/start times), restarts, or filler words identifiable from the transcript.\n2.  Accurate (if a script is provided): The spoken words in the transcript must closely match the provided script text for that segment.\n\nAnalyze the following transcript (with word timings). Identify all segments that qualify as perfect takes based ONLY on the criteria above (fluency, coherence, script accuracy). Assume the original audio quality was acceptable.\n\nTranscript with word timings:\n\"\"\"\n"

/-- Template text between the transcript hole and the script hole. -/
def promptPart2 : String :=
  " // Use formatted if available, otherwise plain transcript\n\"\"\"\n\n"

/-- The script block rendered when a script is supplied. -/
def promptScriptBlock (script : String) : String :=
  "Script for comparison:\n\"\"\"\n" ++ script ++ "\n\"\"\""

/-- The sentence rendered when no script is supplied. -/
def promptNoScript : String :=
  "No script provided. Focus ONLY on fluency and coherence based on the transcript."

/-- Template text after the script hole (instructions and example output).
The braces of the example JSON are written with escapes. -/
def promptPart3 : String :=
  "\n\nReturn the results ONLY as a single valid JSON object containing an array named \"segments\". Do NOT include any explanation, commentary, or text outside the JSON object block. Each segment object in the array must include:\n- \"start\": The start time of the perfect take in seconds (use the start time of the first word in the segment, formatted to 2 decimal places).\n- \"end\": The end time of the perfect take in seconds (use the end time of the last word in the segment, formatted to 2 decimal places).\n- \"confidence\": A score from 0.0 to 1.0 indicating your confidence that this segment is a perfect take according to the criteria (fluency, coherence, and script accuracy if applicable). Higher scores mean higher certainty.\n\nExample output format:\n\x7b\n  \"segments\": [\n    \x7b\n      \"start\": 10.52,\n      \"end\": 15.18,\n      \"confidence\": 0.95\n    \x7d,\n    \x7b\n      \"start\": 25.09,\n      \"end\": 32.75,\n      \"confidence\": 0.98\n    \x7d\n  ]\n\x7d\n\nBase the start/end times strictly on the word timings provided in the transcript. Ensure your output strictly adheres to the JSON format. Output ONLY the JSON object.\n"

/-- A transcribed word with its parsed timings (`wordsWithTimings` entries).
`word` keeps the raw JSON value (`undefined` as `none`); the template
stringifies it. -/
structure TimedWord where
  word : Option Json
  startTime : JsNum
  endTime : JsNum

/-- Exact decimal rendering of a `Q10` (sign, digits, point).  Used only to
model JS number stringification; JS prints the shortest round-trip decimal,
which agrees on the values this pipeline renders.  -/
def decimalRepr (q : Q10) : String :=
  let sign := if q.num < 0 then "-" else ""
  let mAbs := q.num.natAbs
  if q.exp == 0 then sign ++ toString mAbs
  else
    let d : Nat := 10 ^ q.exp
    sign ++ toString (mAbs / d) ++ "." ++ toString (mAbs % d)

/-- JS template-literal stringification of a value (`String(v)`).  Arrays and
objects stringify by JS's join/`[object Object]` rules, which the pipeline
never relies on; they are modelled by their default clauses. -/
def jsToString : Option Json → String
  | none => "undefined"
  | some .null => "null"
  | some (.bool true) => "true"
  | some (.bool false) => "false"
  | some (.str s) => s
  | some (.num q) => decimalRepr q
  | some (.arr _) => ""
  | some (.obj _) => "[object Object]"

/-- One rendered word:
``[`${w.startTime.toFixed(2)}s-${w.endTime.toFixed(2)}s`] ${w.word}``. -/
def renderWord (w : TimedWord) : String :=
  "[" ++ w.startTime.toFixed2s ++ "s-" ++ w.endTime.toFixed2s ++ "s] " ++ jsToString w.word

/-- `wordsWithTimings.map(...).join(' ')`. -/
def formattedTranscript (ws : List TimedWord) : String :=
  String.intercalate " " (ws.map renderWord)

/-- The full `llmPrompt` template literal: transcript block (the formatted
transcript when non-empty, else the plain transcript, per
`formattedTranscript || transcript`), then the script block or the no-script
sentence (per the `script ? ... : ...` hole). -/
def llmPrompt (ws : List TimedWord) (transcript : String) (script : Option String) : String :=
  promptPart1 ++
    (if formattedTranscript ws == "" then transcript else formattedTranscript ws) ++
    promptPart2 ++
    (match script with
      | some s => promptScriptBlock s
      | none => promptNoScript) ++
    promptPart3

/-! ## The external world

Each analysis request performs at most one call to each external service, so
the environment is modelled by one oracle value per call: the outcome that
call would have.  A `.error` is a rejected promise / thrown exception (its
message); an `.ok` is the delivered response. -/

/-- A `try { ... } catch (e) { throw new Error(prefix + e.message) }` block:
failures are re-thrown with a stage prefix, successes pass through. -/
def wrapErr (pre : String) : Except String α → Except String α
  | .error e => .error (pre ++ e)
  | .ok v => .ok v

structure HttpResp where
  ok : Bool
  status : Nat
  statusText : String
  body : String

/-- The audio fetch: `bodyBase64` models `Buffer.from(arrayBuffer).toString('base64')`. -/
structure AudioResp where
  ok : Bool
  status : Nat
  statusText : String
  bodyBase64 : String

structure World where
  /-- zod's `z.string().url()` check (library-internal; modelled as an
  oracle predicate on the candidate string). -/
  urlOk : String → Bool
  /-- `process.env.DEEPSEEK_API_KEY`. -/
  apiKey : Option String
  /-- `fetch(audioUrl)`. -/
  audioFetch : Except String AudioResp
  /-- `fetch(metadataUrl, ...)`. -/
  metadataResp : Except String HttpResp
  /-- `execSync('gcloud auth print-access-token')` standard output. -/
  gcloudOut : Except String String
  /-- `fetch(GOOGLE_STT_API_ENDPOINT, ...)`. -/
  sttResp : Except String HttpResp
  /-- `fetch(DEEPSEEK_API_URL, ...)`. -/
  llmResp : Except String HttpResp

/-! ## Credential resolution (`getGoogleAccessToken`) -/

/-- Safe property read `v?.k`: `undefined`/`null` short-circuit to
`undefined`, objects look the key up, primitives yield `undefined`. -/
def jsGetSafe (v : Option Json) (k : String) : Option Json :=
  match v with
  | some (.obj ms) => Json.lookupLast k ms
  | _ => none

/-- Safe index read `v?.[0]`.  JS strings index to one-character strings;
objects look up the key `"0"`. -/
def jsIndex0 : Option Json → Option Json
  | some (.arr (x :: _)) => some x
  | some (.str s) =>
    match s.data with
    | c :: _ => some (.str (String.mk [c]))
    | [] => none
  | some (.obj ms) => Json.lookupLast "0" ms
  | _ => none

/-- The fixed message thrown when both credential paths fail (the individual
diagnostics are only logged, never included). -/
def authFailureMsg : String :=
  "Failed to obtain Google Cloud access token. Ensure ADC is configured or gcloud is installed and authenticated."

/-- The metadata-server half of `getGoogleAccessToken` (everything inside its
first `try`): request, status check, `response.json()`, token-field check. -/
def metadataTokenAttempt (w : World) : Except String String :=
  match w.metadataResp with
  | .error e => .error e
  | .ok r =>
    if !r.ok then .error ("Metadata server request failed: " ++ toString r.status)
    else
      match parseJson r.body with
      | .error e => .error e
      | .ok data =>
        match data.getProp "access_token" with
        | .error e => .error e
        | .ok tok =>
          if Json.truthy tok then .ok (jsToString tok)
          else .error "Metadata server response did not contain access_token"

/-- `getGoogleAccessToken`: metadata server first; on **any** failure of that
attempt fall back to the `gcloud` CLI.  The second component records whether
the CLI fallback was invoked. -/
def getGoogleAccessToken (w : World) : Except String String × Bool :=
  match metadataTokenAttempt w with
  | .ok t => (.ok t, false)
  | .error _ =>
    match w.gcloudOut with
    | .error _ => (.error authFailureMsg, true)
    | .ok out =>
      let token := String.mk (trimL out.data)
      if token == "" then (.error authFailureMsg, true) else (.ok token, true)

/-! ## Transcription-response processing -/

/-- `parseFloat(field?.replace('s', '') || '0')` for a word's `startTime` /
`endTime` property value (`none` = the property was absent).  Calling
`.replace` on a non-string non-nullish value throws a `TypeError`. -/
def parseTimeField (v : Option Json) : Except String JsNum :=
  match v with
  | none => .ok (parseFloat "0")
  | some .null => .ok (parseFloat "0")
  | some (.str s) =>
    let s' := String.mk (removeFirstS s.data)
    .ok (parseFloat (if s' == "" then "0" else s'))
  | some _ => .error "TypeError: replace is not a function"

/-- One `wordInfo` entry of `alternative.words.forEach`. -/
def processWordInfo (j : Json) : Except String TimedWord :=
  match j.getProp "word" with
  | .error e => .error e
  | .ok wv =>
    match j.getProp "startTime" with
    | .error e => .error e
    | .ok stv =>
      match parseTimeField stv with
      | .error e => .error e
      | .ok st =>
        match j.getProp "endTime" with
        | .error e => .error e
        | .ok etv =>
          match parseTimeField etv with
          | .error e => .error e
          | .ok et => .ok ⟨wv, st, et⟩

/-- `alternative.words.forEach(wordInfo => wordsWithTimings.push(...))`. -/
def processWords : List Json → Except String (List TimedWord)
  | [] => .ok []
  | j :: js =>
    match processWordInfo j with
    | .error e => .error e
    | .ok tw =>
      match processWords js with
      | .error e => .error e
      | .ok tws => .ok (tw :: tws)

/-- `sttResult.results.forEach(result => ...)`: accumulates the transcript
text (`transcript += (alternative.transcript || "") + " "`) and the timed
words across all result groups, using only the first alternative of each. -/
def processResultsList (rs : List Json) (trAcc : String) :
    Except String (String × List TimedWord) :=
  match rs with
  | [] => .ok (trAcc, [])
  | r :: rest =>
    match r.getProp "alternatives" with
    | .error e => .error e
    | .ok alts =>
      let alternative := jsIndex0 alts
      if Json.truthy alternative then
        let t := jsGetSafe alternative "transcript"
        let trAcc' := trAcc ++ (if Json.truthy t then jsToString t else "") ++ " "
        let wv := jsGetSafe alternative "words"
        if Json.truthy wv then
          match wv with
          | some (.arr wjs) =>
            match processWords wjs with
            | .error e => .error e
            | .ok tws =>
              match processResultsList rest trAcc' with
              | .error e => .error e
              | .ok (trFinal, twsRest) => .ok (trFinal, tws ++ twsRest)
          | _ => .error "TypeError: forEach is not a function"
        else processResultsList rest trAcc'
      else processResultsList rest trAcc

/-- JS `sttResult.results.length > 0` for an arbitrary `results` value:
arrays and strings report their length; other objects read a `length`
property (numeric values compare against 0, anything else is `undefined > 0
= false`); primitives give `undefined > 0 = false`. -/
def lengthGtZero : Option Json → Bool
  | some (.arr l) => !l.isEmpty
  | some (.str s) => !(s == "")
  | some (.obj ms) =>
    match Json.lookupLast "length" ms with
    | some (.num q) => decide ((0 : Q10) < q)
    | _ => false
  | _ => false

/-- The `if (sttResult.results && sttResult.results.length > 0)` guard. -/
def resultsNonempty (v : Option Json) : Bool :=
  Json.truthy v && lengthGtZero v

/-- The speech-to-text stage of the flow: token, request, response check,
`JSON.parse`, then either the processed `(transcript, words)` or `none` for
the zero-results short-circuit.  Every failure inside the stage's `try` is
wrapped as `Speech-to-Text analysis failed: ...` by its `catch`. -/
def sttPhase (w : World) : Except String (Option (String × List TimedWord)) :=
  wrapErr "Speech-to-Text analysis failed: " <|
    match (getGoogleAccessToken w).1 with
    | .error e => .error e
    | .ok _tok =>
      match w.sttResp with
      | .error e => .error e
      | .ok r =>
        if !r.ok then
          .error ("Google Speech-to-Text API request failed: " ++ toString r.status ++ " " ++
            r.statusText ++ " - " ++ r.body)
        else
          match parseJson r.body with
          | .error e => .error e
          | .ok sttResult =>
            match sttResult.getProp "results" with
            | .error e => .error e
            | .ok results =>
              if resultsNonempty results then
                match results with
                | some (.arr rsList) =>
                  match processResultsList rsList "" with
                  | .error e => .error e
                  | .ok (tr, words) => .ok (some (String.mk (trimL tr.data), words))
                | _ => .error "TypeError: forEach is not a function"
              else .ok none

/-! ## The DeepSeek stage -/

/-- `deepSeekResponse?.choices?.[0]?.message?.content?.trim()`:
the optional chain never throws until the final `.trim()`, which throws a
`TypeError` when `content` is a non-string non-nullish value. -/
def messageContentOf (dsr : Json) : Except String (Option String) :=
  let c := jsGetSafe (jsGetSafe (jsIndex0 (jsGetSafe (some dsr) "choices")) "message") "content"
  match c with
  | none => .ok none
  | some .null => .ok none
  | some (.str s) => .ok (some (String.mk (trimL s.data)))
  | some _ => .error "TypeError: trim is not a function"

/-- The inner `try` of the DeepSeek stage: locate the JSON payload (fenced
block first), `JSON.parse` it, validate against the output schema.  Parse
failures and the schema-validation `throw` are both re-thrown by the inner
`catch` as `Failed to parse the JSON content received from DeepSeek: ...`. -/
def contentToResult (mc : String) : Except String AnalyzeOutput :=
  match parseJson (String.mk (jsonCandidate mc.data)) with
  | .error e => .error ("Failed to parse the JSON content received from DeepSeek: " ++ e)
  | .ok parsed =>
    match validateOutput parsed with
    | .error e =>
      .error ("Failed to parse the JSON content received from DeepSeek: " ++
        "DeepSeek response content structure validation failed: " ++ e)
    | .ok out => .ok out

/-- The DeepSeek stage: request, non-success handling (with best-effort
extraction of `errorJson?.error?.message`), response parsing, message-content
extraction, then `contentToResult`.  Everything in the stage's `try` is
wrapped as `Failed to analyze transcript using DeepSeek: ...` by its
`catch`. -/
def llmPhase (w : World) (ws : List TimedWord) (transcript : String) (script : Option String) :
    Except String AnalyzeOutput :=
  let _prompt := llmPrompt ws transcript script
  wrapErr "Failed to analyze transcript using DeepSeek: " <|
    match w.llmResp with
    | .error e => .error e
    | .ok r =>
      if !r.ok then
        let details :=
          match parseJson r.body with
          | .ok ej =>
            let m := jsGetSafe (jsGetSafe (some ej) "error") "message"
            if Json.truthy m then jsToString m else r.body
          | .error _ => r.body
        .error ("DeepSeek API request failed: " ++ toString r.status ++ " " ++ r.statusText ++
          " - " ++ details)
      else
        match parseJson r.body with
        | .error e => .error e
        | .ok dsr =>
          match messageContentOf dsr with
          | .error e => .error e
          | .ok mc =>
            match mc with
            | none => .error "DeepSeek response did not contain the expected message content."
            | some s =>
              if s == "" then .error "DeepSeek response did not contain the expected message content."
              else contentToResult s

/-! ## Input schema and the flow entry point -/

/-- Modelled zod issue text for a missing required key (zod's exact
formatting is library-internal). -/
def zodRequiredMsg : String := "Required"

/-- Modelled zod issue text for a failed `url()` check. -/
def zodInvalidUrlMsg : String := "Invalid url"

/-- Modelled zod issue text for a mistyped field. -/
def zodInvalidTypeMsg : String := "Expected string"

/-- `AnalyzeAudioForCleanSegmentsInputSchema.safeParse`: requires an
`audioUrl` member that is a string accepted by `url()`; `script` is an
optional string. -/
def inputSchemaSafeParse (urlOk : String → Bool) (input : Json) :
    Except String (String × Option String) :=
  match input with
  | .obj ms =>
    match Json.lookupLast "audioUrl" ms with
    | some (.str u) =>
      if urlOk u then
        match Json.lookupLast "script" ms with
        | none => .ok (u, none)
        | some (.str s) => .ok (u, some s)
        | some _ => .error zodInvalidTypeMsg
      else .error zodInvalidUrlMsg
    | some _ => .error zodInvalidTypeMsg
    | none => .error zodRequiredMsg
  | _ => .error zodInvalidTypeMsg

deriving instance DecidableEq for Except

/-- Result of one run of the flow, together with whether the DeepSeek call
was issued. -/
structure RunResult where
  result : Except String AnalyzeOutput
  llmCalled : Bool
deriving DecidableEq

/-- The exported flow `analyzeAudioForCleanSegments`: input validation, API
key check, audio fetch, speech-to-text, zero-results short-circuit (which
returns `segments: []` **without** a DeepSeek call), then the DeepSeek
stage. -/
def analyzeAudioForCleanSegments (w : World) (input : Json) : RunResult :=
  match inputSchemaSafeParse w.urlOk input with
  | .error m => ⟨.error ("Invalid input: " ++ m), false⟩
  | .ok (_audioUrl, script) =>
    match w.apiKey with
    | none => ⟨.error "DeepSeek API Key (DEEPSEEK_API_KEY) is not configured.", false⟩
    | some _ =>
      match w.audioFetch with
      | .error e => ⟨.error ("Failed to fetch audio data from URL: " ++ e), false⟩
      | .ok fr =>
        if !fr.ok then
          ⟨.error ("Failed to fetch audio data from URL: Failed to fetch audio: " ++
            toString fr.status ++ " " ++ fr.statusText), false⟩
        else
          match sttPhase w with
          | .error e => ⟨.error e, false⟩
          | .ok none => ⟨.ok ⟨[]⟩, false⟩
          | .ok (some (transcript, words)) => ⟨llmPhase w words transcript script, true⟩

/-! ## The `AudioAnalyzer` module -/

/-- `CleanSegment` is `z.infer<typeof SegmentSchema>`. -/
abbrev CleanSegment := Segment

/-- The comparator `(a, b) => a.start - b.start` as the ordering relation it
induces: `a` may stay before `b` iff `a.start ≤ b.start`. -/
def leStart (a b : Segment) : Prop := a.start ≤ b.start

instance : DecidableRel leStart := fun a b => Q10.decLe a.start b.start

instance : IsTotal Segment leStart := ⟨fun a b => Q10.leTotal a.start b.start⟩

instance : IsTrans Segment leStart := ⟨fun _ _ _ h₁ h₂ => Q10.leTrans h₁ h₂⟩

/-- `segments.sort((a, b) => a.start - b.start)`: JS `Array.prototype.sort`
is required (ES2019) to produce a stable permutation sorted by the
comparator; any stable sort realises exactly that contract, and
`List.insertionSort` is one. -/
def sortSegments (segs : List Segment) : List Segment :=
  segs.insertionSort leStart

/-- `AudioAnalyzer.processAndCombineSegmentsInternal`: guard clauses, the
in-place sort, then the unconditional `not implemented` throw.  The second
component is the final state of the **caller's** array (the sort mutates it
in place). -/
def processAndCombineSegmentsInternal (audioBase64 : String) (segments : List Segment) :
    Except String Unit × List Segment :=
  if segments.isEmpty then
    (.error "Cannot process audio: No clean segments provided.", segments)
  else if audioBase64 == "" then
    (.error "Audio data (base64) must be provided for processing.", segments)
  else
    (.error "Audio segment processing not implemented yet.", sortSegments segments)

/-- The exported wrapper `processAndCombineAudioSegments` (delegates to the
shared `AudioAnalyzer` instance). -/
def processAndCombineAudioSegments (audioBase64 : String) (segments : List Segment) :
    Except String Unit × List Segment :=
  processAndCombineSegmentsInternal audioBase64 segments

/-- `AudioAnalyzer.analyzeInternal`: empty-input guard, then — inside the
`try` — validation of the object `{ audioBase64, script }` against the
**flow input schema** (whose required key is `audioUrl`), then the flow call.
The second component records whether the flow was invoked. -/
def analyzeInternal (w : World) (audioBase64 : String) (script : Option String) :
    Except String AnalyzeOutput × Bool :=
  if audioBase64 == "" then (.error "Audio data (base64) must be provided.", false)
  else
    let input : Json := .obj
      (("audioBase64", Json.str audioBase64) ::
        (match script with
          | some s => [("script", Json.str s)]
          | none => []))
    match inputSchemaSafeParse w.urlOk input with
    | .error m =>
      (.error ("Failed to analyze audio: Invalid input data for analysis flow: " ++ m), false)
    | .ok (audioUrl, script') =>
      let validated : Json := .obj
        (("audioUrl", Json.str audioUrl) ::
          (match script' with
            | some s => [("script", Json.str s)]
            | none => []))
      match (analyzeAudioForCleanSegments w validated).result with
      | .error e => (.error ("Failed to analyze audio: " ++ e), true)
      | .ok out => (.ok out, true)

/-- The exported wrapper `analyzeAudio` (delegates to the shared instance). -/
def analyzeAudio (w : World) (audioBase64 : String) (script : Option String) :
    Except String AnalyzeOutput × Bool :=
  analyzeInternal w audioBase64 script

/-! ## Statement helpers and concrete fixtures -/

/-- Substring test (character-list search), used to state facts about error
messages and the prompt text. -/
def containsSub (hay sub : List Char) : Bool :=
  match hay with
  | [] => sub.isEmpty
  | _ :: t => sub.isPrefixOf hay || containsSub t sub

/-- `strContains hay sub`: `sub` occurs inside `hay`. -/
def strContains (hay sub : String) : Bool :=
  containsSub hay.data sub.data

/-- Whether an `Except` is a success. -/
def isOkB : Except String α → Bool
  | .ok _ => true
  | .error _ => false

/-- A segment with whole-second fields (notation helper for fixtures). -/
def segI (s e c : Int) : Segment := ⟨⟨s, 0⟩, ⟨e, 0⟩, ⟨c, 0⟩⟩

/-- The segment `{"start": 5, "end": 5, "confidence": 0.8}` from §8 of the
spec: `end ≤ start` yet schema-valid. -/
def segBad : Segment := ⟨⟨5, 0⟩, ⟨5, 0⟩, ⟨8, 1⟩⟩

/-- A flow input `{ audioUrl: "http://x/a.wav" }`. -/
def sampleInput : Json := .obj [("audioUrl", .str "http://x/a.wav")]

/-- The model completion `{"segments":[{"start":5,"end":5,"confidence":0.8}]}`
(a well-formed response whose single segment has `end ≤ start`). -/
def badSegmentJson : String :=
  "\x7b\x22segments\x22:[\x7b\x22start\x22:5,\x22end\x22:5,\x22confidence\x22:0.8\x7d]\x7d"

/-- A response body for the DeepSeek endpoint whose message content is
`badSegmentJson`. -/
def llmBodyBadSegment : String :=
  "\x7b\x22choices\x22:[\x7b\x22message\x22:\x7b\x22content\x22:\x22\x7b\\\x22segments\\\x22:[\x7b\\\x22start\\\x22:5,\\\x22end\\\x22:5,\\\x22confidence\\\x22:0.8\x7d]\x7d\x22\x7d\x7d]\x7d"

/-- A transcription response body with one word (`"hi"`, 0s–1.2s). -/
def sttBodyOneWord : String :=
  "\x7b\x22results\x22:[\x7b\x22alternatives\x22:[\x7b\x22transcript\x22:\x22hi there\x22,\x22words\x22:[\x7b\x22word\x22:\x22hi\x22,\x22startTime\x22:\x220s\x22,\x22endTime\x22:\x221.200s\x22\x7d]\x7d]\x7d]\x7d"

/-- A transcription response body with an empty `results` array. -/
def sttBodyEmptyResults : String := "\x7b\x22results\x22:[]\x7d"

/-- A metadata-server response body carrying an access token. -/
def metadataBodyTok : String := "\x7b\x22access_token\x22:\x22tok\x22\x7d"

/-- A world in which every service succeeds, the transcription has one word,
and the model answers with `llmBodyBadSegment`. -/
def worldBadSegment : World where
  urlOk := fun _ => true
  apiKey := some "k"
  audioFetch := .ok ⟨true, 200, "OK", "QUJD"⟩
  metadataResp := .ok ⟨true, 200, "OK", metadataBodyTok⟩
  gcloudOut := .error "gcloud not found"
  sttResp := .ok ⟨true, 200, "OK", sttBodyOneWord⟩
  llmResp := .ok ⟨true, 200, "OK", llmBodyBadSegment⟩

/-- Like `worldBadSegment` but the transcription service reports
`results: []`. -/
def worldEmptyResults : World :=
  { worldBadSegment with sttResp := .ok ⟨true, 200, "OK", sttBodyEmptyResults⟩ }

/-- The steps `llmPhase` applies to a raw model completion before schema
validation: `.trim()` (building `messageContent`), then `contentToResult`
(fenced-block search, `JSON.parse`, schema validation). -/
def completionResult (content : String) : Except String AnalyzeOutput :=
  contentToResult (String.mk (trimL content.data))

/-- A schema-valid payload whose `note` string contains three backticks:
`{"segments":[],"note":"` + three backticks + `"}`. -/
def noteTicksJson : String := "\x7b\x22segments\x22:[],\x22note\x22:\x22```\x22\x7d"

/-- `noteTicksJson` wrapped in a fenced code block with prose around it. -/
def wrappedNoteTicks : String :=
  "Here you go:\n```json\n" ++ noteTicksJson ++ "\n```\nLet me know if needed."

/-- The payload of the spec's §8 fenced-block example:
`{"segments":[{"start":1.0,"end":2.5,"confidence":0.9}]}`. -/
def specExampleJson : String :=
  "\x7b\x22segments\x22:[\x7b\x22start\x22:1.0,\x22end\x22:2.5,\x22confidence\x22:0.9\x7d]\x7d"

/-- The two words of the spec's prompt-builder test: `Hello` at 0.00–0.40 s
and `world` at 0.42–0.81 s. -/
def wordsHelloWorld : List TimedWord :=
  [⟨some (.str "Hello"), .fin ⟨0, 0⟩, .fin ⟨4, 1⟩⟩,
   ⟨some (.str "world"), .fin ⟨42, 2⟩, .fin ⟨81, 2⟩⟩]

/-- A world in which the metadata request is rejected at the network level
and the `gcloud` CLI is missing. -/
def worldAuthBothFail : World :=
  { worldBadSegment with
    metadataResp := .error "connect ECONNREFUSED 169.254.169.254:80"
    gcloudOut := .error "gcloud: command not found" }

theorem Q10.leRefl (a : Q10) : a ≤ a := by
  rw [Q10.le_iff_toRat]

/-- A segment accepted by `SegmentSchema` has its confidence in `[0, 1]`. -/
theorem validateSegment_ok_bounds {j : Json} {s : Segment}
    (h : validateSegment j = .ok s) : (0 : Q10) ≤ s.confidence ∧ s.confidence ≤ 1 := by
  unfold validateSegment at h
  split at h
  · split at h
    · split at h
      · rename_i hc
        cases h
        exact hc
      · exact absurd h (by simp)
    · exact absurd h (by simp)
  · exact absurd h (by simp)

/-- Every segment of a validated array has its confidence in `[0, 1]`. -/
theorem validateSegments_ok_bounds :
    ∀ {items : List Json} {ss : List Segment}, validateSegments items = .ok ss →
      ∀ s ∈ ss, (0 : Q10) ≤ s.confidence ∧ s.confidence ≤ 1 := by
  intro items
  induction items with
  | nil =>
    intro ss h s hs
    cases h
    cases hs
  | cons j js ih =>
    intro ss h s hs
    unfold validateSegments at h
    split at h
    · exact absurd h (by simp)
    · rename_i s₀ hs₀
      split at h
      · exact absurd h (by simp)
      · rename_i ss₀ hss₀
        cases h
        rcases List.mem_cons.mp hs with rfl | hs'
        · exact validateSegment_ok_bounds hs₀
        · exact ih hss₀ s hs'

/-- `wrapErr` succeeds exactly when its argument does, with the same value. -/
theorem wrapErr_ok {pre : String} {r : Except String α} {v : α} :
    wrapErr pre r = .ok v ↔ r = .ok v := by
  cases r <;> simp [wrapErr]

/-- Every segment of a schema-validated output has its confidence in
`[0, 1]`. -/
theorem validateOutput_ok_bounds {j : Json} {out : AnalyzeOutput}
    (h : validateOutput j = .ok out) :
    ∀ s ∈ out.segments, (0 : Q10) ≤ s.confidence ∧ s.confidence ≤ 1 := by
  unfold validateOutput at h
  split at h
  · split at h
    · split at h
      · rename_i hss
        cases h
        exact fun s hs => validateSegments_ok_bounds hss s hs
      · exact absurd h (by simp)
    · exact absurd h (by simp)
  · exact absurd h (by simp)

/-- `contentToResult` only succeeds through `validateOutput`. -/
theorem contentToResult_ok_bounds {mc : String} {out : AnalyzeOutput}
    (h : contentToResult mc = .ok out) :
    ∀ s ∈ out.segments, (0 : Q10) ≤ s.confidence ∧ s.confidence ≤ 1 := by
  unfold contentToResult at h
  split at h
  · exact absurd h (by simp)
  · split at h
    · exact absurd h (by simp)
    · rename_i hv
      cases h
      exact validateOutput_ok_bounds hv

/-- `llmPhase` only succeeds through `contentToResult`. -/
theorem llmPhase_ok_bounds {w : World} {ws : List TimedWord} {tr : String}
    {sc : Option String} {out : AnalyzeOutput}
    (h : llmPhase w ws tr sc = .ok out) :
    ∀ s ∈ out.segments, (0 : Q10) ≤ s.confidence ∧ s.confidence ≤ 1 := by
  simp only [llmPhase] at h
  rw [wrapErr_ok] at h
  split at h
  · exact absurd h (by simp)
  · split at h
    · exact absurd h (by simp)
    · split at h
      · exact absurd h (by simp)
      · split at h
        · exact absurd h (by simp)
        · split at h
          · exact absurd h (by simp)
          · split at h
            · exact absurd h (by simp)
            · exact contentToResult_ok_bounds h

/-! ## Claim C1 -/

/-- C1 (counterexample): a fully successful run of `analyzeAudioForCleanSegments`
returns a segment with `start = end = 5` — the claimed invariant
`0 ≤ start < end` does **not** hold of successfully returned results, because
`SegmentSchema` never compares `start` with `end`. -/
theorem c1_claim_false_start_lt_end :
    (analyzeAudioForCleanSegments worldBadSegment sampleInput).result = .ok ⟨[segBad]⟩ ∧
      ¬ segBad.start < segBad.«end» := by
  constructor
  · decide
  · decide

/-- C1 (amended): every successfully returned `AnalysisResult` has each
segment's `confidence` in `[0, 1]` (the only bound `SegmentSchema` enforces);
`start ≥ 0` and `start < end` are not enforced. -/
theorem c1_amended_confidence_bounds (w : World) (input : Json) (out : AnalyzeOutput)
    (h : (analyzeAudioForCleanSegments w input).result = .ok out) :
    ∀ s ∈ out.segments, (0 : Q10) ≤ s.confidence ∧ s.confidence ≤ 1 := by
  simp only [analyzeAudioForCleanSegments] at h
  split at h
  · exact absurd h (by simp)
  · split at h
    · exact absurd h (by simp)
    · split at h
      · exact absurd h (by simp)
      · split at h
        · exact absurd h (by simp)
        · split at h
          · exact absurd h (by simp)
          · cases h
            intro s hs
            cases hs
          · dsimp only at h
            exact llmPhase_ok_bounds h

/-- C1 (witness): the amended theorem applied to the concrete successful run. -/
theorem c1_amended_confidence_bounds_witness :
    (analyzeAudioForCleanSegments worldBadSegment sampleInput).result = .ok ⟨[segBad]⟩ ∧
      (0 : Q10) ≤ segBad.confidence ∧ segBad.confidence ≤ 1 :=
  ⟨by decide,
    c1_amended_confidence_bounds worldBadSegment sampleInput ⟨[segBad]⟩ (by decide)
      segBad (by decide)⟩

/-! ## Claim C2 -/

/-- C2 (counterexample): the extraction-and-validation step **accepts** a
response whose only segment has `end ≤ start` (`{"start":5,"end":5,
"confidence":0.8}`): no `ModelOutputError` is raised, contrary to the claim. -/
theorem c2_claim_false_end_le_start_accepted :
    contentToResult badSegmentJson = .ok ⟨[segBad]⟩ ∧ ¬ segBad.start < segBad.«end» := by
  constructor
  · decide
  · decide

/-- If one element of the array fails `SegmentSchema`, the whole array
validation fails. -/
theorem validateSegments_error_of_bad {bad : Json} (hbad : isOkB (validateSegment bad) = false)
    (post : List Json) :
    ∀ pre : List Json, isOkB (validateSegments (pre ++ bad :: post)) = false := by
  intro pre
  induction pre with
  | nil =>
    simp only [List.nil_append, validateSegments]
    rcases hb : validateSegment bad with e | s
    · simp [isOkB]
    · rw [hb] at hbad
      simp [isOkB] at hbad
  | cons j js ih =>
    simp only [List.cons_append, validateSegments]
    rcases hj : validateSegment j with e | s
    · simp [isOkB]
    · rcases hv : validateSegments (js ++ bad :: post) with e | ss
      · simp [isOkB]
      · rw [hv] at ih
        simp [isOkB] at ih

/-- C2 (amended): a segment with `end ≤ start` is accepted (see the
counterexample); what does invalidate the entire response — with no partial
acceptance — is any segment failing the checks the schema actually performs
(missing or non-numeric field, or `confidence` outside `[0, 1]`). -/
theorem c2_amended_no_partial_acceptance (pre post : List Json) (bad : Json)
    (hbad : isOkB (validateSegment bad) = false) :
    isOkB (validateOutput (.obj [("segments", .arr (pre ++ bad :: post))])) = false := by
  have h := validateSegments_error_of_bad hbad post pre
  simp only [validateOutput, Json.lookupLast]
  rcases hv : validateSegments (pre ++ bad :: post) with e | ss
  · simp [hv, isOkB]
  · rw [hv] at h
    simp [isOkB] at h

/-- C2 (witness): a well-formed segment before and after a segment with
`confidence = 1.5` does not save the response: the whole validation fails. -/
theorem c2_amended_no_partial_acceptance_witness :
    isOkB (validateSegment (.obj [("start", .num ⟨1, 0⟩), ("end", .num ⟨2, 0⟩),
        ("confidence", .num ⟨15, 1⟩)])) = false ∧
      isOkB (validateOutput (.obj [("segments", .arr
        [.obj [("start", .num ⟨0, 0⟩), ("end", .num ⟨1, 0⟩), ("confidence", .num ⟨1, 0⟩)],
         .obj [("start", .num ⟨1, 0⟩), ("end", .num ⟨2, 0⟩), ("confidence", .num ⟨15, 1⟩)],
         .obj [("start", .num ⟨2, 0⟩), ("end", .num ⟨3, 0⟩), ("confidence", .num ⟨1, 0⟩)]])])) =
        false :=
  ⟨by decide,
    c2_amended_no_partial_acceptance
      [.obj [("start", .num ⟨0, 0⟩), ("end", .num ⟨1, 0⟩), ("confidence", .num ⟨1, 0⟩)]]
      [.obj [("start", .num ⟨2, 0⟩), ("end", .num ⟨3, 0⟩), ("confidence", .num ⟨1, 0⟩)]]
      (.obj [("start", .num ⟨1, 0⟩), ("end", .num ⟨2, 0⟩), ("confidence", .num ⟨15, 1⟩)])
      (by decide)⟩

/-! ## Claim C4 -/

/-- C4 (counterexample): with two segments tied on `start` and `end`s in
descending order, the call does **not** return a sequence at all (it fails
with the `not implemented` error), and the tie is left in input order rather
than re-ordered by ascending `end`. -/
theorem c4_claim_false_finalize_throws :
    processAndCombineSegmentsInternal "QUJD" [segI 0 2 1, segI 0 1 1] =
      (.error "Audio segment processing not implemented yet.", [segI 0 2 1, segI 0 1 1]) ∧
      ¬ (segI 0 2 1).«end» ≤ (segI 0 1 1).«end» := by
  constructor
  · decide
  · decide

/-- C4 (amended): for a non-empty segment list (and non-empty audio), the
call stably sorts the caller's array by ascending `start` — same length,
non-decreasing `start`s, idempotent, ties kept in their original relative
order (`end` is never consulted) — and then always fails with the
`not implemented` error instead of returning the sequence. -/
theorem c4_amended_sort_before_throw (ab : String) (segs : List Segment)
    (hab : ab ≠ "") (hs : segs ≠ []) :
    processAndCombineSegmentsInternal ab segs =
        (.error "Audio segment processing not implemented yet.", sortSegments segs) ∧
      (sortSegments segs).length = segs.length ∧
      List.Sorted leStart (sortSegments segs) ∧
      sortSegments (sortSegments segs) = sortSegments segs ∧
      (∀ a b : Segment, a.start = b.start → List.Sublist [a, b] segs →
        List.Sublist [a, b] (sortSegments segs)) := by
  refine ⟨?_, ?_, ?_, ?_, ?_⟩
  · simp [processAndCombineSegmentsInternal, List.isEmpty_iff, hs, hab]
  · exact List.length_insertionSort leStart segs
  · exact List.sorted_insertionSort leStart segs
  · exact List.Sorted.insertionSort_eq (List.sorted_insertionSort leStart segs)
  · intro a b hstart hsub
    have hab : leStart a b := by
      show a.start ≤ b.start
      rw [hstart]
      exact Q10.leRefl b.start
    exact List.pair_sublist_insertionSort hab hsub

/-- C4 (witness): the amended theorem at a concrete tied pair; the tie is
preserved in input order by the sort. -/
theorem c4_amended_sort_before_throw_witness :
    processAndCombineSegmentsInternal "QUJD" [segI 0 2 1, segI 0 1 1] =
        (.error "Audio segment processing not implemented yet.",
          sortSegments [segI 0 2 1, segI 0 1 1]) ∧
      sortSegments [segI 0 2 1, segI 0 1 1] = [segI 0 2 1, segI 0 1 1] :=
  ⟨(c4_amended_sort_before_throw "QUJD" [segI 0 2 1, segI 0 1 1]
      (by decide) (by decide)).1,
    by decide⟩

/-! ## Claim C7 -/

/-- C7 (counterexample): a malformed timestamp string (`"abc"`) parses to
`NaN`, not to zero, contradicting the claim's "missing **or malformed** …
is parsed to the floating-point value zero". -/
theorem c7_claim_false_malformed_is_nan :
    parseTimeField (some (.str "abc")) = .ok .nan ∧ JsNum.nan ≠ JsNum.fin ⟨0, 0⟩ := by
  constructor
  · decide
  · decide

/-- C7 (amended): a missing (or `null`) timestamp and an empty string parse
to zero; a well-formed value with the `'s'` suffix parses to seconds; a
malformed non-empty string parses to `NaN` — still without failing the
transcription (the result is an `.ok`, not an error). -/
theorem c7_amended_time_parsing :
    parseTimeField none = .ok (.fin ⟨0, 0⟩) ∧
      parseTimeField (some .null) = .ok (.fin ⟨0, 0⟩) ∧
      parseTimeField (some (.str "")) = .ok (.fin ⟨0, 0⟩) ∧
      parseTimeField (some (.str "12.34s")) = .ok (.fin ⟨1234, 2⟩) ∧
      parseTimeField (some (.str "0s")) = .ok (.fin ⟨0, 0⟩) ∧
      parseTimeField (some (.str "abc")) = .ok .nan := by
  refine ⟨?_, ?_, ?_, ?_, ?_, ?_⟩ <;> decide

/-! ## Claim C10 -/

/-- C10: for a non-empty segment array (and non-empty audio),
`processAndCombineAudioSegments` leaves the caller's array sorted in place by
ascending `start` even though the call itself fails with the
`not implemented` error — the operation is not atomic in its input on
failure. -/
theorem c10_sort_in_place_then_throw (ab : String) (segs : List Segment)
    (hab : ab ≠ "") (hs : segs ≠ []) :
    processAndCombineAudioSegments ab segs =
      (.error "Audio segment processing not implemented yet.", sortSegments segs) := by
  simp [processAndCombineAudioSegments, processAndCombineSegmentsInternal,
    List.isEmpty_iff, hs, hab]

/-- C10 (witness): a concrete unsorted array is reordered although the call
only ever fails. -/
theorem c10_sort_in_place_then_throw_witness :
    processAndCombineAudioSegments "QUJD" [segI 3 4 1, segI 1 2 1] =
        (.error "Audio segment processing not implemented yet.",
          sortSegments [segI 3 4 1, segI 1 2 1]) ∧
      sortSegments [segI 3 4 1, segI 1 2 1] ≠ [segI 3 4 1, segI 1 2 1] :=
  ⟨c10_sort_in_place_then_throw "QUJD" [segI 3 4 1, segI 1 2 1] (by decide) (by decide),
    by decide⟩

/-! ## Claim C3 -/

/-- C3: for every non-empty `audioBase64`, `analyzeInternal` (and hence the
public `analyzeAudio`) fails with the input-validation error before the flow
— and so before any transcription or model work — is reached: the validated
object `{ audioBase64, script }` never carries the `audioUrl` key the flow's
input schema requires. -/
theorem c3_input_validation_always_fails (w : World) (ab : String) (script : Option String)
    (hab : ab ≠ "") :
    analyzeInternal w ab script =
      (.error ("Failed to analyze audio: Invalid input data for analysis flow: " ++
        zodRequiredMsg), false) := by
  cases script <;> simp [analyzeInternal, inputSchemaSafeParse, Json.lookupLast, hab]

/-- C3 (witness): the theorem at a concrete non-empty base64 input, with and
without a script the outcome is the same validation failure. -/
theorem c3_input_validation_always_fails_witness :
    analyzeInternal worldBadSegment "QUJD" (some "hello") =
      (.error ("Failed to analyze audio: Invalid input data for analysis flow: " ++
        zodRequiredMsg), false) :=
  c3_input_validation_always_fails worldBadSegment "QUJD" (some "hello") (by decide)

/-! ## Claim C8 -/

/-- C8 (counterexample): when both credential paths fail, the raised error's
message is the fixed `authFailureMsg` — it contains neither the metadata
attempt's diagnostic (`ECONNREFUSED ...`) nor the CLI attempt's diagnostic
(`command not found`), contradicting "carries the combined diagnostic from
both attempts". -/
theorem c8_claim_false_no_combined_diagnostics :
    (getGoogleAccessToken worldAuthBothFail).1 = .error authFailureMsg ∧
      strContains authFailureMsg "ECONNREFUSED" = false ∧
      strContains authFailureMsg "command not found" = false := by
  refine ⟨?_, ?_, ?_⟩ <;> decide

/-- C8 (amended): credential resolution first attempts the metadata
endpoint; when that attempt succeeds its token is returned and the CLI is
never invoked; on **any** failure of that attempt the CLI fallback is
invoked, its trimmed standard output is returned when non-empty, and only
when both paths fail is an error raised — whose message is the **fixed**
string `authFailureMsg` (the two attempts' diagnostics are logged, not
included). -/
theorem c8_amended_fallback_then_fixed_message (w : World) :
    (∀ t, metadataTokenAttempt w = .ok t → getGoogleAccessToken w = (.ok t, false)) ∧
      (∀ e, metadataTokenAttempt w = .error e →
        (getGoogleAccessToken w).2 = true ∧
          (∀ g, w.gcloudOut = .error g →
            (getGoogleAccessToken w).1 = .error authFailureMsg) ∧
          (∀ out, w.gcloudOut = .ok out →
            (String.mk (trimL out.data) = "" →
              (getGoogleAccessToken w).1 = .error authFailureMsg) ∧
            (String.mk (trimL out.data) ≠ "" →
              (getGoogleAccessToken w).1 = .ok (String.mk (trimL out.data))))) := by
  constructor
  · intro t ht
    simp [getGoogleAccessToken, ht]
  · intro e he
    refine ⟨?_, ?_, ?_⟩
    · simp [getGoogleAccessToken, he]
      rcases w.gcloudOut with g | out
      · simp
      · simp only []
        split <;> simp
    · intro g hg
      simp [getGoogleAccessToken, he, hg]
    · intro out hout
      constructor
      · intro hemp
        simp [getGoogleAccessToken, he, hout, hemp]
      · intro hne
        simp [getGoogleAccessToken, he, hout, hne]

/-- C8 (witness): the amended theorem at the concrete world where the
metadata request is refused and the CLI is missing. -/
theorem c8_amended_fallback_then_fixed_message_witness :
    (getGoogleAccessToken worldAuthBothFail).2 = true ∧
      (getGoogleAccessToken worldAuthBothFail).1 = .error authFailureMsg := by
  have h := (c8_amended_fallback_then_fixed_message worldAuthBothFail).2
    "connect ECONNREFUSED 169.254.169.254:80" (by decide)
  exact ⟨h.1, h.2.1 "gcloud: command not found" (by decide)⟩

/-! ## Claim C5 -/

/-- C5: whenever the transcription stage is reached and the service's
response parses to an object whose `results` member is absent or an empty
array, the flow returns `AnalysisResult{ segments: [] }` as a non-error
outcome and the DeepSeek call is never issued. -/
theorem c5_empty_results_short_circuit (w : World) (input : Json) (url : String)
    (script : Option String) (k : String) (fr : AudioResp) (tok : String)
    (r : HttpResp) (kvs : List (String × Json))
    (hin : inputSchemaSafeParse w.urlOk input = .ok (url, script))
    (hkey : w.apiKey = some k)
    (hfetch : w.audioFetch = .ok fr) (hfok : fr.ok = true)
    (htok : (getGoogleAccessToken w).1 = .ok tok)
    (hstt : w.sttResp = .ok r) (hrok : r.ok = true)
    (hbody : parseJson r.body = .ok (.obj kvs))
    (hres : Json.lookupLast "results" kvs = none ∨
      Json.lookupLast "results" kvs = some (.arr [])) :
    analyzeAudioForCleanSegments w input = ⟨.ok ⟨[]⟩, false⟩ := by
  have hstt1 : sttPhase w = .ok none := by
    rcases hres with hres | hres <;>
      simp [sttPhase, wrapErr, htok, hstt, hrok, hbody, Json.getProp, resultsNonempty,
        Json.truthy, lengthGtZero, hres]
  simp [analyzeAudioForCleanSegments, hin, hkey, hfetch, hfok, hstt1]

/-- C5 (witness): the theorem at the concrete world whose transcription
response body is `{"results":[]}`. -/
theorem c5_empty_results_short_circuit_witness :
    analyzeAudioForCleanSegments worldEmptyResults sampleInput = ⟨.ok ⟨[]⟩, false⟩ :=
  c5_empty_results_short_circuit worldEmptyResults sampleInput "http://x/a.wav" none
    "k" ⟨true, 200, "OK", "QUJD"⟩ "tok" ⟨true, 200, "OK", sttBodyEmptyResults⟩
    [("results", .arr [])] rfl rfl rfl rfl rfl rfl rfl rfl (Or.inr rfl)

/-! ## Claim C9 -/

set_option maxRecDepth 40000 in
/-- C9: with the words `Hello` (0.00–0.40 s) and `world` (0.42–0.81 s) and no
script, the built prompt contains the literal annotated-transcript substring
and the no-script sentence. -/
theorem c9_prompt_contains_transcript_and_no_script :
    strContains (llmPrompt wordsHelloWorld "Hello world" none)
        "[0.00s-0.40s] Hello [0.42s-0.81s] world" = true ∧
      strContains (llmPrompt wordsHelloWorld "Hello world" none) promptNoScript = true := by
  constructor
  · decide
  · decide

/-! ## Claim C6

String lemmas about the fenced-block regex model.  `noB xsff` below means the
text contains no backtick, which keeps the regex's leftmost match at the
inserted fence. -/

/-- `splitTicks` skips over backtick-free text. -/
theorem splitTicks_append_noB {xs : List Char} (hxs : ∀ c ∈ xs, c ≠ btick) (ys : List Char) :
    splitTicks (xs ++ ys) =
      match splitTicks ys with
      | some (bf, af) => some (xs ++ bf, af)
      | none => none := by
  induction xs with
  | nil =>
    simp only [List.nil_append]
    rcases h : splitTicks ys with _ | ⟨bf, af⟩ <;> simp
  | cons c cs ih =>
    have hc : (c == btick) = false := by
      have := hxs c (by simp)
      simp [this]
    have ih' := ih (fun d hd => hxs d (by simp [hd]))
    rcases h : splitTicks ys with _ | ⟨bf, af⟩ <;>
      rw [h] at ih' <;>
      simp only [List.cons_append, splitTicks, hc, Bool.false_and, List.append_eq,
        Bool.false_eq_true, if_false, ih', h]

/-- `splitTicks` fires on a leading triple of backticks. -/
theorem splitTicks_cons_ticks (rest : List Char) :
    splitTicks (btick :: btick :: btick :: rest) = some ([], rest) := by
  simp [splitTicks, List.take, List.drop]

/-- Backtick-free text has no fenced block at all. -/
theorem splitTicks_none_noB {xs : List Char} (hxs : ∀ c ∈ xs, c ≠ btick) :
    splitTicks xs = none := by
  have h := splitTicks_append_noB hxs []
  simpa [splitTicks] using h

/-- `isWs` rejects the backtick. -/
theorem isWs_btick : isWs btick = false := by decide

/-- Leading-trim distributes over a backtick-headed suffix. -/
theorem dropWhile_isWs_open (pre rest : List Char) :
    (pre ++ btick :: rest).dropWhile isWs = pre.dropWhile isWs ++ btick :: rest := by
  rw [List.dropWhile_append]
  by_cases h : (pre.dropWhile isWs).isEmpty
  · simp [h, List.dropWhile_cons, isWs_btick, List.isEmpty_iff.mp h]
  · simp [h]

/-- Trailing-trim stops at a closing backtick triple. -/
theorem rdropWhile_isWs_close (X post : List Char) :
    rdropWhile isWs (X ++ '\n' :: btick :: btick :: btick :: post) =
      X ++ '\n' :: btick :: btick :: btick :: rdropWhile isWs post := by
  unfold rdropWhile
  rw [show X ++ '\n' :: btick :: btick :: btick :: post =
    (X ++ ['\n', btick, btick, btick]) ++ post by simp]
  rw [List.reverse_append, List.dropWhile_append]
  by_cases h : (post.reverse.dropWhile isWs).isEmpty
  · rw [if_pos h]
    rw [List.isEmpty_iff.mp h]
    rw [List.reverse_append]
    simp [List.dropWhile_cons, isWs_btick]
  · rw [if_neg h]
    simp [List.reverse_append, List.dropWhile_cons, isWs_btick]

/-- A list whose leading-trim is itself and which is non-empty starts with a
non-whitespace character. -/
theorem head_not_ws {p : List Char} (hpn : p ≠ []) (hlead : p.dropWhile isWs = p) :
    ∃ c p', p = c :: p' ∧ isWs c = false := by
  cases p with
  | nil => exact absurd rfl hpn
  | cons c p' =>
    refine ⟨c, p', rfl, ?_⟩
    by_contra hc
    have hc' : isWs c = true := by
      cases h : isWs c
      · exact absurd h hc
      · rfl
    rw [List.dropWhile_cons, hc'] at hlead
    simp only [if_true] at hlead
    have hsub : List.Sublist (List.dropWhile isWs p') p' := List.dropWhile_sublist isWs
    rw [hlead] at hsub
    have := hsub.length_le
    simp at this

/-- The regex capture on a completion of the shape
`pre ++ fence ++ "json" ++ newline ++ p ++ newline ++ fence ++ tail` is
exactly `p`, for backtick-free `pre` and backtick-free, whitespace-trimmed
`p`. -/
theorem extractFenced_wrapped (pre p tail : List Char)
    (hpre : ∀ c ∈ pre, c ≠ btick) (hp : ∀ c ∈ p, c ≠ btick) (hpn : p ≠ [])
    (hlead : p.dropWhile isWs = p) (htrail : rdropWhile isWs p = p) :
    extractFenced (pre ++ btick :: btick :: btick :: 'j' :: 's' :: 'o' :: 'n' :: '\n' ::
      (p ++ '\n' :: btick :: btick :: btick :: tail)) = some p := by
  have h1 : splitTicks (pre ++ btick :: btick :: btick :: 'j' :: 's' :: 'o' :: 'n' :: '\n' ::
      (p ++ '\n' :: btick :: btick :: btick :: tail)) =
      some (pre, 'j' :: 's' :: 'o' :: 'n' :: '\n' :: (p ++ '\n' :: btick :: btick :: btick :: tail)) := by
    rw [splitTicks_append_noB hpre]
    rw [splitTicks_cons_ticks]
    simp
  have h2 : splitTicks (p ++ '\n' :: btick :: btick :: btick :: tail) =
      some (p ++ ['\n'], tail) := by
    rw [splitTicks_append_noB hp]
    have hnl : splitTicks ('\n' :: btick :: btick :: btick :: tail) = some (['\n'], tail) := by
      rw [show ('\n' :: btick :: btick :: btick :: tail) =
        ['\n'] ++ btick :: btick :: btick :: tail by simp]
      rw [splitTicks_append_noB (by decide)]
      rw [splitTicks_cons_ticks]
      simp
    rw [hnl]
  obtain ⟨c, p', hpc, hcw⟩ := head_not_ws hpn hlead
  simp only [extractFenced, h1]
  have hpref : ("json".data.isPrefixOf
      ('j' :: 's' :: 'o' :: 'n' :: '\n' :: (p ++ '\n' :: btick :: btick :: btick :: tail))) = true := by
    simp [List.isPrefixOf]
  rw [if_pos hpref]
  have hdrop4 : ('j' :: 's' :: 'o' :: 'n' :: '\n' ::
      (p ++ '\n' :: btick :: btick :: btick :: tail)).drop 4 =
      '\n' :: (p ++ '\n' :: btick :: btick :: btick :: tail) := rfl
  rw [hdrop4]
  have hdw : ('\n' :: (p ++ '\n' :: btick :: btick :: btick :: tail)).dropWhile isWs =
      p ++ '\n' :: btick :: btick :: btick :: tail := by
    rw [List.dropWhile_cons]
    simp only [show isWs '\n' = true from rfl, if_true]
    rw [hpc, List.cons_append, List.dropWhile_cons, hcw]
    simp
  rw [hdw, h2]
  show some (rdropWhile isWs (p ++ ['\n'])) = some p
  have hcap : rdropWhile isWs (p ++ ['\n']) = p := by
    unfold rdropWhile at htrail ⊢
    rw [List.reverse_append]
    simp only [List.reverse_cons, List.reverse_nil, List.nil_append, List.singleton_append]
    rw [List.dropWhile_cons]
    simp only [show isWs '\n' = true by decide, if_true]
    exact htrail
  rw [hcap]

/-- `trim()` of a wrapped completion: leading whitespace of the prose before
and trailing whitespace of the prose after are removed; the fence and payload
are untouched. -/
theorem trimL_wrapped (pre p post : List Char) :
    trimL (pre ++ btick :: btick :: btick :: 'j' :: 's' :: 'o' :: 'n' :: '\n' ::
        (p ++ '\n' :: btick :: btick :: btick :: post)) =
      pre.dropWhile isWs ++ btick :: btick :: btick :: 'j' :: 's' :: 'o' :: 'n' :: '\n' ::
        (p ++ '\n' :: btick :: btick :: btick :: rdropWhile isWs post) := by
  unfold trimL
  rw [dropWhile_isWs_open]
  have hassoc : pre.dropWhile isWs ++ btick :: btick :: btick :: 'j' :: 's' :: 'o' :: 'n' ::
      '\n' :: (p ++ '\n' :: btick :: btick :: btick :: post) =
      (pre.dropWhile isWs ++ btick :: btick :: btick :: 'j' :: 's' :: 'o' :: 'n' :: '\n' :: p) ++
        '\n' :: btick :: btick :: btick :: post := by
    simp
  rw [hassoc, rdropWhile_isWs_close]
  simp

/-- Equal JSON-candidate strings give equal extraction results. -/
theorem contentToResult_congr {X Y : List Char} (h : jsonCandidate X = jsonCandidate Y) :
    contentToResult (String.mk X) = contentToResult (String.mk Y) := by
  unfold contentToResult
  rw [show (String.mk X).data = X from rfl, show (String.mk Y).data = Y from rfl, h]

/-- C6 (counterexample): the schema-valid payload `noteTicksJson` (its `note`
string contains a backtick triple) parses to `segments: []` when given
unwrapped, but the same payload wrapped in a fenced block with prose around
it makes the lazy capture stop inside the string literal, so the call fails —
the two completions do **not** yield the same result. -/
theorem c6_claim_false_backtick_payload :
    completionResult noteTicksJson = .ok ⟨[]⟩ ∧
      completionResult wrappedNoteTicks ≠ completionResult noteTicksJson := by
  constructor
  · decide
  · decide

/-- C6 (amended): for a payload `p` and surrounding prose free of backticks
(and `p` non-empty with no leading/trailing whitespace), the completion
`pre ++ fenced block containing p ++ post` yields exactly the same result as
the completion `p` alone. -/
theorem c6_amended_fenced_equivalence (pre p post : String)
    (hpre : ∀ c ∈ pre.data, c ≠ btick) (hp : ∀ c ∈ p.data, c ≠ btick)
    (hpn : p.data ≠ [])
    (hlead : p.data.dropWhile isWs = p.data) (htrail : rdropWhile isWs p.data = p.data) :
    completionResult (pre ++ "```json\n" ++ p ++ "\n```" ++ post) = completionResult p := by
  have hdata : (pre ++ "```json\n" ++ p ++ "\n```" ++ post).data =
      pre.data ++ btick :: btick :: btick :: 'j' :: 's' :: 'o' :: 'n' :: '\n' ::
        (p.data ++ '\n' :: btick :: btick :: btick :: post.data) := by
    have hfence : ("```json\n" : String).data =
        btick :: btick :: btick :: 'j' :: 's' :: 'o' :: 'n' :: '\n' :: [] := by decide
    have hclose : ("\n```" : String).data = '\n' :: btick :: btick :: btick :: [] := by decide
    have hbt : ('\x60' : Char) = btick := by decide
    simp [String.data_append, hfence, hclose]
    exact hbt
  have hpre' : ∀ c ∈ pre.data.dropWhile isWs, c ≠ btick :=
    fun c hc => hpre c ((List.dropWhile_sublist isWs).subset hc)
  have hx := extractFenced_wrapped (pre.data.dropWhile isWs) p.data
    (rdropWhile isWs post.data) hpre' hp hpn hlead htrail
  have hcand : jsonCandidate (pre.data.dropWhile isWs ++ btick :: btick :: btick ::
      'j' :: 's' :: 'o' :: 'n' :: '\n' ::
      (p.data ++ '\n' :: btick :: btick :: btick :: rdropWhile isWs post.data)) = p.data := by
    unfold jsonCandidate
    rw [hx]
  have hnone : extractFenced p.data = none := by
    unfold extractFenced
    rw [splitTicks_none_noB hp]
  have hcand2 : jsonCandidate p.data = p.data := by
    unfold jsonCandidate
    rw [hnone]
  have htr : trimL p.data = p.data := by
    unfold trimL
    rw [hlead, htrail]
  unfold completionResult
  rw [hdata, trimL_wrapped, htr]
  exact contentToResult_congr (by rw [hcand, hcand2])

/-- C6 (witness): the amended theorem at the spec's §8 example — the payload
`{"segments":[{"start":1.0,"end":2.5,"confidence":0.9}]}` wrapped in prose
and a fenced block parses exactly as the bare payload, which succeeds with
the one segment. -/
theorem c6_amended_fenced_equivalence_witness :
    completionResult ("Here you go:\n" ++ "```json\n" ++ specExampleJson ++ "\n```" ++
        "\nLet me know if needed.") = completionResult specExampleJson ∧
      completionResult specExampleJson = .ok ⟨[⟨⟨10, 1⟩, ⟨25, 1⟩, ⟨9, 1⟩⟩]⟩ :=
  ⟨c6_amended_fenced_equivalence "Here you go:\n" specExampleJson "\nLet me know if needed."
      (by decide) (by decide) (by decide) (by decide) (by decide),
    by decide⟩

end VoiceOnStudio
